import Mathlib

/-
Verification development for the dr-joe-material media-library client.

The definitions below are shallow embeddings of the program logic:
  - src/src/App.tsx            (the shipped UI generation; playback, playlists,
                                favorites, share toggling, media URL resolution)
  - src/netlify/functions/shared-playlists.js
                               (the serverless shared-playlist store)
  - the redesigned UI generation whose full source is embedded in
    src/DEPLOY.md (loop modes, skip handlers, library queue)

React useState fields become record fields; each event handler becomes a
function from state to state.  Network calls that can fail are given an
explicit Bool success parameter; the nondeterministic share-id generator
is given its fresh suffix as a parameter.
-/

namespace DrJoe

/-- Media item from the catalog (src/src/App.tsx, type MediaItem).  Only the
fields read by the playback and playlist logic are modelled; title,
collection, type and metadata are presentation-only. -/
structure MediaItem where
  id : String
  path : String
deriving DecidableEq, Repr

/-- Playlist entry (src/src/App.tsx, type PlaylistItem): a reference to a
MediaItem id plus the per-entry loop flag. -/
structure PlaylistItem where
  itemId : String
  loop : Bool
deriving DecidableEq, Repr

/-- Playlist (src/src/App.tsx, type Playlist). -/
structure Playlist where
  id : String
  name : String
  items : List PlaylistItem
  shared : Bool
  shareId : Option String := none
  ownerId : Option String := none
deriving DecidableEq, Repr

/-! ### Favorites (src/src/App.tsx, handleToggleFavorite, lines 694-704)

The favorites useState holds a Set of item ids; the handler copies the set
and deletes the id when present, adds it when absent. -/

/-- Embedding of handleToggleFavorite: toggle membership of itemId in the
favorites set. -/
def handleToggleFavorite (favorites : Finset String) (itemId : String) : Finset String :=
  if itemId ∈ favorites then favorites.erase itemId else insert itemId favorites

/-! ### Media URL resolution (src/src/App.tsx, buildMediaUrl, lines 32-36)

buildMediaUrl returns the empty string when no media base is configured;
otherwise it strips trailing slashes from the base address with the regex
replace of /\/+$/ by the empty string, percent-encodes each slash-separated
segment of the item path with encodeURIComponent, and rejoins with slashes. -/

/-- Characters left unescaped by the JavaScript encodeURIComponent:
ASCII letters, digits, and - _ . ! ~ * apostrophe ( ). -/
def isUnreservedURI (c : Char) : Bool :=
  c.isAlpha || c.isDigit || c == '-' || c == '_' || c == '.' || c == '!' ||
    c == '~' || c == '*' || c == Char.ofNat 39 || c == '(' || c == ')'

/-- UTF-8 bytes of a Unicode code point. -/
def utf8Bytes (n : Nat) : List Nat :=
  if n < 128 then [n]
  else if n < 2048 then [192 + n / 64, 128 + n % 64]
  else if n < 65536 then [224 + n / 4096, 128 + (n / 64) % 64, 128 + n % 64]
  else [240 + n / 262144, 128 + (n / 4096) % 64, 128 + (n / 64) % 64, 128 + n % 64]

/-- Uppercase hexadecimal digit. -/
def hexDigitChar (n : Nat) : Char :=
  if n < 10 then Char.ofNat (48 + n) else Char.ofNat (55 + n)

/-- Percent-escape of one byte, as in %20. -/
def percentEncodeByte (b : Nat) : List Char :=
  ['%', hexDigitChar (b / 16), hexDigitChar (b % 16)]

/-- Model of the JavaScript encodeURIComponent: unreserved characters are
kept, every other character is replaced by the percent-escapes of its UTF-8
bytes. -/
def encodeURIComponent (s : String) : String :=
  String.mk ((s.data.map (fun c =>
    if isUnreservedURI c then [c] else (utf8Bytes c.toNat).map percentEncodeByte |>.flatten)).flatten)

/-- Drop every trailing slash of a character list (the effect of the regex
replace of /\/+$/ by the empty string). -/
def dropTrailingSlashes (cs : List Char) : List Char :=
  (cs.reverse.dropWhile (fun c => c == '/')).reverse

/-- String form of dropTrailingSlashes. -/
def stripTrailingSlashes (s : String) : String :=
  String.mk (dropTrailingSlashes s.data)

/-- Embedding of buildMediaUrl (src/src/App.tsx lines 32-36).  The configured
media base address is passed as the first argument (MEDIA_BASE_URL, empty
string when unconfigured, which is falsy in the source). -/
def buildMediaUrl (base relPath : String) : String :=
  if base = "" then ""
  else
    let segments := (relPath.splitOn "/").map encodeURIComponent
    stripTrailingSlashes base ++ "/" ++ String.intercalate "/" segments

/-! ### Playback session state of the shipped generation (src/src/App.tsx)

The useState fields relevant to playback: items (the catalog), selectedId,
currentPlaylist, playlistIndex, plus the transport state of the single
audio element (currentTime, playing). -/

/-- Playback-relevant state of the App component in src/src/App.tsx. -/
structure AppState where
  items : List MediaItem
  selectedId : Option String
  currentPlaylist : Option Playlist
  playlistIndex : Nat
  position : ℚ
  isPlaying : Bool
deriving DecidableEq, Repr

/-- Embedding of handleSelectItem (src/src/App.tsx lines 977-979): the
handler only calls setSelectedId(item.id). -/
def handleSelectItem (s : AppState) (item : MediaItem) : AppState :=
  { s with selectedId := some item.id }

/-- Embedding of handlePlayPlaylist (src/src/App.tsx lines 706-715): return
unchanged on an empty playlist; otherwise set the current playlist and index
0, then look the first entry up in the catalog and select it when found. -/
def handlePlayPlaylist (s : AppState) (playlist : Playlist) : AppState :=
  if playlist.items.length = 0 then s
  else
    let s1 := { s with currentPlaylist := some playlist, playlistIndex := 0 }
    match playlist.items.head? with
    | none => s1
    | some first =>
      match s.items.find? (fun item => item.id == first.itemId) with
      | some firstItem => { s1 with selectedId := some firstItem.id }
      | none => s1

/-- Embedding of the ended handler installed by the playlist-playback effect
(src/src/App.tsx lines 928-963).  The listener exists only while
currentPlaylist is non-null.  When the current entry has its loop flag set,
the audio element is rewound to 0 and replayed; otherwise the handler
advances to playlistIndex + 1 when that index is in bounds and the
referenced item exists in the catalog (doing nothing when the reference
dangles), and clears the playlist when past the end. -/
def handleEnded (s : AppState) : AppState :=
  match s.currentPlaylist with
  | none => s
  | some pl =>
    let currentItem := pl.items[s.playlistIndex]?
    if (currentItem.map PlaylistItem.loop).getD false then
      { s with position := 0, isPlaying := true }
    else
      let nextIndex := s.playlistIndex + 1
      if nextIndex < pl.items.length then
        match pl.items[nextIndex]? with
        | some e =>
          match s.items.find? (fun item => item.id == e.itemId) with
          | some nextItem => { s with playlistIndex := nextIndex, selectedId := some nextItem.id }
          | none => s
        | none => s
      else
        { s with currentPlaylist := none, playlistIndex := 0 }

/-! ### Share toggling and the two playlist stores (src/src/App.tsx)

handleSharePlaylist (lines 733-757) moves a playlist between the private
store (the playlists useState, persisted to localStorage) and the shared
store (the server table mirrored by the sharedPlaylists useState).  The
server round trips are modelled by their effect on the mirrored lists, with
an explicit success flag; the generated share id is "share-" ++ fresh for a
caller-supplied fresh suffix. -/

/-- The two playlist stores. -/
structure Stores where
  playlists : List Playlist
  sharedPlaylists : List Playlist
deriving DecidableEq, Repr

/-- Model of the JavaScript expression playlist.shareId || generateShareId():
an absent or empty share id is replaced by the generated one. -/
def shareIdOrFresh (shareId : Option String) (generated : String) : String :=
  match shareId with
  | some s => if s = "" then generated else s
  | none => generated

/-- Share id generated by generateShareId (src/src/App.tsx lines 450-452),
with the Date.now and Math.random part abstracted as the fresh suffix. -/
def generateShareId (fresh : String) : String :=
  "share-" ++ fresh

/-- Effect of writePlaylist of src/netlify/functions/shared-playlists.js on
the stored list: replace the first entry with the same id, append when no
entry matches. -/
def upsertById : List Playlist → Playlist → List Playlist
  | [], p => [p]
  | q :: rest, p => if q.id == p.id then p :: rest else q :: upsertById rest p

/-- The sharedPlaylist object built in the share branch of
handleSharePlaylist: shared := true, shareId assigned only when absent. -/
def sharedCopy (p : Playlist) (fresh : String) : Playlist :=
  { p with shared := true, shareId := some (shareIdOrFresh p.shareId (generateShareId fresh)) }

/-- The unsharedPlaylist object built in the unshare branch of
handleSharePlaylist: shared := false and shareId cleared to undefined. -/
def unsharedCopy (p : Playlist) : Playlist :=
  { p with shared := false, shareId := none }

/-- Embedding of handleSharePlaylist (src/src/App.tsx lines 733-757).
Unshare branch: delete from the server (on success the refreshed mirror no
longer holds the id), then append a copy with shared := false and
shareId := none to the private store; the delete result is ignored by the
source.  Share branch: build a copy with shared := true and an assigned
share id, upsert it into the server store, and only on success remove the
playlist from the private store. -/
def handleSharePlaylist (st : Stores) (p : Playlist) (fresh : String)
    (deleteOk saveOk : Bool) : Stores :=
  if p.shared then
    let st1 :=
      if deleteOk then
        { st with sharedPlaylists := st.sharedPlaylists.filter (fun q => q.id != p.id) }
      else st
    { st1 with playlists := st1.playlists ++ [unsharedCopy p] }
  else
    let q : Playlist := sharedCopy p fresh
    if saveOk then
      { st with
          sharedPlaylists := upsertById st.sharedPlaylists q,
          playlists := st.playlists.filter (fun r => r.id != p.id) }
    else st

/-- Membership of an id in a playlist store. -/
def hasId (l : List Playlist) (i : String) : Bool :=
  l.any (fun p => p.id == i)

/-! ### The redesigned UI generation (full source embedded in src/DEPLOY.md)

This generation owns the loop-mode and skip logic: loopMode, handleSkipNext,
handleSkipPrevious, goToPlaylistIndex, goToLibraryIndex, and the library
queue orderedItems (the catalog sorted by path).  The comparator
a.path.localeCompare(b.path) is modelled as code-point order on paths, and
the stable Array.prototype.sort as insertion sort. -/

namespace Redesign

/-- Loop mode of the redesigned player: none, all, or one. -/
inductive LoopMode where
  | noneMode
  | all
  | one
deriving DecidableEq, Repr

/-- Code-point lexicographic comparison of two character lists, the model of
a.path.localeCompare(b.path) being at most zero. -/
def pathLeB : List Char → List Char → Bool
  | [], _ => true
  | _ :: _, [] => false
  | a :: as, b :: bs =>
    if a.toNat < b.toNat then true
    else if b.toNat < a.toNat then false
    else pathLeB as bs

/-- Stable insertion of a media item into a list sorted by path. -/
def insertByPath (it : MediaItem) : List MediaItem → List MediaItem
  | [] => [it]
  | x :: xs => if pathLeB it.path.data x.path.data then it :: x :: xs else x :: insertByPath it xs

/-- Stable sort of the catalog by ascending path, the library queue
orderedItems of the redesigned generation. -/
def sortByPath : List MediaItem → List MediaItem
  | [] => []
  | x :: xs => insertByPath x (sortByPath xs)

/-- Playback-relevant state of the redesigned App component.  Fields not
read or written by the embedded handlers (full-player visibility, transport
position, editor state) are omitted. -/
structure V2State where
  items : List MediaItem
  selectedId : Option String
  currentPlaylist : Option Playlist
  playlistIndex : Nat
  loopMode : LoopMode
  shouldAutoPlay : Bool
deriving DecidableEq, Repr

/-- Derived selected item: orderedItems.find((i) => i.id === selectedId). -/
def selectedItem (s : V2State) : Option MediaItem :=
  match s.selectedId with
  | none => none
  | some sid => (sortByPath s.items).find? (fun i => i.id == sid)

/-- Derived library index of the selected item, -1 when nothing resolves. -/
def libraryIndex (s : V2State) : Int :=
  match selectedItem s with
  | none => -1
  | some it =>
    match (sortByPath s.items).findIdx? (fun item => item.id == it.id) with
    | some n => (n : Int)
    | none => -1

/-- Embedding of goToPlaylistIndex: reject when no playlist is active, when
the target index is out of bounds, or when the target entry does not resolve
in the catalog; otherwise move there, select the item, and arm autoplay.
The negative-index check of the source is subsumed by the Nat index. -/
def goToPlaylistIndex (s : V2State) (targetIndex : Nat) : Bool × V2State :=
  match s.currentPlaylist with
  | none => (false, s)
  | some pl =>
    if pl.items.length ≤ targetIndex then (false, s)
    else
      match pl.items[targetIndex]? with
      | none => (false, s)
      | some e =>
        match s.items.find? (fun item => item.id == e.itemId) with
        | none => (false, s)
        | some targetItem =>
          (true, { s with
              playlistIndex := targetIndex,
              selectedId := some targetItem.id,
              shouldAutoPlay := true })

/-- Embedding of goToLibraryIndex: bounds-check the target against the
library queue, then leave playlist mode and select the item there. -/
def goToLibraryIndex (s : V2State) (targetIndex : Int) : Bool × V2State :=
  if targetIndex < 0 ∨ ((sortByPath s.items).length : Int) ≤ targetIndex then (false, s)
  else
    match (sortByPath s.items)[targetIndex.toNat]? with
    | none => (false, s)
    | some targetItem =>
      (true, { s with
          currentPlaylist := none,
          playlistIndex := 0,
          selectedId := some targetItem.id,
          shouldAutoPlay := true })

/-- Embedding of handleSkipNext of the redesigned generation: nothing when
no item is selected; in playlist mode advance when before the last index,
else wrap to 0 only when loopMode is all; in library mode the same against
the library queue. -/
def handleSkipNext (s : V2State) : V2State :=
  match selectedItem s with
  | none => s
  | some _ =>
    match s.currentPlaylist with
    | some pl =>
      if s.playlistIndex < pl.items.length - 1 then
        (goToPlaylistIndex s (s.playlistIndex + 1)).2
      else if s.loopMode = LoopMode.all then
        (goToPlaylistIndex s 0).2
      else s
    | none =>
      if libraryIndex s < ((sortByPath s.items).length : Int) - 1 then
        (goToLibraryIndex s (libraryIndex s + 1)).2
      else if s.loopMode = LoopMode.all then
        (goToLibraryIndex s 0).2
      else s

end Redesign

/-! ### The shared-playlist server (src/netlify/functions/shared-playlists.js)

The POST branch of exports.handler (lines 201-241) parses the body,
rejects a request whose id or name is falsy or whose items is not an array,
forces shared = true, assigns a share id only when the request carries none
(JavaScript truthiness: undefined or empty string), and then stores the
playlist through writePlaylist.  A failing write yields status 500 with
nothing stored. -/

/-- Parsed POST body.  A field that is absent or not of the expected type is
none; items = none models a missing or non-array items field. -/
structure UpsertRequest where
  id : Option String
  name : Option String
  items : Option (List PlaylistItem)
  shareId : Option String
deriving DecidableEq, Repr

/-- JavaScript truthiness of an optional string: false for undefined and for
the empty string. -/
def truthy : Option String → Bool
  | none => false
  | some s => s != ""

/-- Outcome of the POST branch: HTTP status plus the playlist actually
stored, none when nothing was written. -/
structure PostResponse where
  status : Nat
  stored : Option Playlist
deriving DecidableEq, Repr

/-- Embedding of the POST branch of exports.handler together with
writePlaylist.  The generated share id abstracts the Date.now and
Math.random suffix as fresh; writeOk is the success of the store write. -/
def handlePost (body : Option UpsertRequest) (fresh : String) (writeOk : Bool) : PostResponse :=
  match body with
  | none => ⟨400, none⟩
  | some req =>
    match req.id, req.name, req.items with
    | some i, some n, some its =>
      if i = "" ∨ n = "" then ⟨400, none⟩
      else
        let sid :=
          match req.shareId with
          | some s => if s = "" then generateShareId fresh else s
          | none => generateShareId fresh
        let p : Playlist := { id := i, name := n, items := its, shared := true, shareId := some sid }
        if writeOk then ⟨200, some p⟩ else ⟨500, none⟩
    | _, _, _ => ⟨400, none⟩

/-! ### Concrete fixtures used by witnesses and counterexamples -/

/-- Catalog item a at path a/1. -/
def itemA : MediaItem := { id := "a", path := "a/1" }

/-- Catalog item b at path a/2. -/
def itemB : MediaItem := { id := "b", path := "a/2" }

/-- A two-item catalog. -/
def sampleCatalog : List MediaItem := [itemA, itemB]

/-- Playlist whose middle entry references an id absent from sampleCatalog. -/
def danglingPlaylist : Playlist :=
  { id := "p", name := "P",
    items := [{ itemId := "a", loop := false }, { itemId := "x", loop := false },
              { itemId := "b", loop := false }],
    shared := false }

/-- Session playing danglingPlaylist at index 0. -/
def danglingState : AppState :=
  { items := sampleCatalog, selectedId := some "a",
    currentPlaylist := some danglingPlaylist, playlistIndex := 0,
    position := 5, isPlaying := true }

/-- Playlist whose second entry has the loop flag on. -/
def loopPlaylist : Playlist :=
  { id := "q", name := "Q",
    items := [{ itemId := "a", loop := false }, { itemId := "b", loop := true }],
    shared := false }

/-- Session playing loopPlaylist at its looping entry. -/
def loopState : AppState :=
  { items := sampleCatalog, selectedId := some "b",
    currentPlaylist := some loopPlaylist, playlistIndex := 1,
    position := 7, isPlaying := true }

/-- Two-entry playlist fully resolvable in sampleCatalog. -/
def twoItemPlaylist : Playlist :=
  { id := "r", name := "R",
    items := [{ itemId := "a", loop := false }, { itemId := "b", loop := false }],
    shared := false }

/-- Session playing twoItemPlaylist at index 0. -/
def twoItemState : AppState :=
  { items := sampleCatalog, selectedId := some "a",
    currentPlaylist := some twoItemPlaylist, playlistIndex := 0,
    position := 2, isPlaying := true }

/-- Session playing twoItemPlaylist at its last index. -/
def endState : AppState :=
  { items := sampleCatalog, selectedId := some "b",
    currentPlaylist := some twoItemPlaylist, playlistIndex := 1,
    position := 3, isPlaying := true }

/-- One-entry playlist whose entry resolves nowhere. -/
def ghostPlaylist : Playlist :=
  { id := "g", name := "G", items := [{ itemId := "x", loop := false }], shared := false }

/-- Idle session over an empty catalog. -/
def emptyState : AppState :=
  { items := [], selectedId := none, currentPlaylist := none, playlistIndex := 0,
    position := 0, isPlaying := false }

/-- A private playlist that has never been shared. -/
def samplePrivate : Playlist :=
  { id := "p1", name := "L", items := [{ itemId := "a", loop := false }], shared := false }

/-- Stores holding only samplePrivate on the private side. -/
def sampleStores : Stores := { playlists := [samplePrivate], sharedPlaylists := [] }

/-- The shared copy produced by sharing samplePrivate with fresh suffix f1. -/
def sampleSharedVersion : Playlist := sharedCopy samplePrivate "f1"

/-- Redesigned-generation playlist whose first entry dangles. -/
def skipPlaylist : Playlist :=
  { id := "s", name := "S",
    items := [{ itemId := "x", loop := false }, { itemId := "a", loop := false }],
    shared := false }

/-- Redesigned-generation state at the last index of skipPlaylist with
loop-all on. -/
def skipCexState : Redesign.V2State :=
  { items := [itemA], selectedId := some "a", currentPlaylist := some skipPlaylist,
    playlistIndex := 1, loopMode := Redesign.LoopMode.all, shouldAutoPlay := false }

/-- Redesigned-generation playlist fully resolvable in sampleCatalog. -/
def skipOkPlaylist : Playlist :=
  { id := "t", name := "T",
    items := [{ itemId := "a", loop := false }, { itemId := "b", loop := false }],
    shared := false }

/-- Redesigned-generation state at the last index of skipOkPlaylist with
loop-all on. -/
def skipOkState : Redesign.V2State :=
  { items := sampleCatalog, selectedId := some "b", currentPlaylist := some skipOkPlaylist,
    playlistIndex := 1, loopMode := Redesign.LoopMode.all, shouldAutoPlay := false }

/-- The same state with loop mode off. -/
def skipNoneState : Redesign.V2State :=
  { skipOkState with loopMode := Redesign.LoopMode.noneMode }

/-- Browsing session over sampleCatalog with nothing playing. -/
def browseState : AppState :=
  { items := sampleCatalog, selectedId := none, currentPlaylist := none, playlistIndex := 0,
    position := 0, isPlaying := false }

/-- Well-formed upsert request that already carries a share id. -/
def goodUpsertReq : UpsertRequest :=
  { id := some "pl-1", name := some "Morning", items := some [], shareId := some "keep-1" }

/-- Well-formed upsert request without a share id. -/
def freshUpsertReq : UpsertRequest :=
  { id := some "pl-2", name := some "Evening", items := some [{ itemId := "a", loop := false }],
    shareId := none }

/-- Upsert request with a falsy id. -/
def badUpsertReq : UpsertRequest :=
  { id := some "", name := some "Morning", items := some [], shareId := none }

end DrJoe

namespace DrJoe

/-! ## Theorems -/

/-- C10: toggling an item id adds it to the favorites set when absent and
removes it when present, leaves every other id unchanged, and toggling twice
restores the original set. -/
theorem handleToggleFavorite_spec (favorites : Finset String) (itemId j : String) :
    (j ≠ itemId → (j ∈ handleToggleFavorite favorites itemId ↔ j ∈ favorites)) ∧
    (itemId ∈ handleToggleFavorite favorites itemId ↔ itemId ∉ favorites) ∧
    handleToggleFavorite (handleToggleFavorite favorites itemId) itemId = favorites := by
  by_cases h : itemId ∈ favorites
  · refine ⟨fun hj => ?_, ?_, ?_⟩
    · simp [handleToggleFavorite, h, Finset.mem_erase, hj]
    · simp [handleToggleFavorite, h]
    · simp [handleToggleFavorite, h, Finset.not_mem_erase, Finset.insert_erase]
  · refine ⟨fun hj => ?_, ?_, ?_⟩
    · simp [handleToggleFavorite, h, Finset.mem_insert, hj]
    · simp [handleToggleFavorite, h]
    · simp [handleToggleFavorite, h, Finset.mem_insert_self, Finset.erase_insert]

/-- C10 witness: toggling b in the set holding only a keeps a untouched. -/
theorem handleToggleFavorite_spec_witness :
    ("a" : String) ≠ "b" ∧
    (("a" : String) ∈ handleToggleFavorite {"a"} "b" ↔ ("a" : String) ∈ ({"a"} : Finset String)) :=
  ⟨by decide, (handleToggleFavorite_spec {"a"} "b" "a").1 (by decide)⟩

/-- Auxiliary: the head of a dropWhile result fails the predicate. -/
theorem head_dropWhile_false (p : Char → Bool) :
    ∀ (l : List Char) (c : Char), (l.dropWhile p).head? = some c → p c = false := by
  intro l
  induction l with
  | nil => intro c hc; simp [List.dropWhile] at hc
  | cons x xs ih =>
    intro c hc
    by_cases hx : p x = true
    · rw [List.dropWhile_cons, if_pos hx] at hc
      exact ih c hc
    · rw [List.dropWhile_cons, if_neg hx] at hc
      simp only [List.head?_cons, Option.some.injEq] at hc
      rw [← hc]
      exact Bool.eq_false_iff.mpr hx

/-- Auxiliary: every character list splits into its trailing-slash-free
prefix and a run of slashes. -/
theorem dropTrailingSlashes_decomp (cs : List Char) :
    ∃ k, cs = dropTrailingSlashes cs ++ List.replicate k '/' := by
  refine ⟨(cs.reverse.takeWhile (fun c => c == '/')).length, ?_⟩
  unfold dropTrailingSlashes
  conv_lhs =>
    rw [← List.reverse_reverse cs,
      ← List.takeWhile_append_dropWhile (p := fun c => c == '/') (l := cs.reverse)]
  rw [List.reverse_append]
  congr 1
  have h : ∀ a ∈ cs.reverse.takeWhile (fun c => c == '/'), a = '/' := by
    intro a ha
    simpa using List.mem_takeWhile_imp ha
  conv_lhs => rw [List.eq_replicate_of_mem h]
  rw [List.reverse_replicate]

/-- Auxiliary: the stripped base never ends in a slash. -/
theorem dropTrailingSlashes_getLast (cs : List Char) (c : Char)
    (h : (dropTrailingSlashes cs).getLast? = some c) : c ≠ '/' := by
  unfold dropTrailingSlashes at h
  rw [List.getLast?_reverse] at h
  have hb := head_dropWhile_false (fun c => c == '/') cs.reverse c h
  simpa using hb

/-- C8: with no media base configured, buildMediaUrl yields the empty
(unresolvable) locator; with a base configured, the locator is the base with
every trailing slash removed, then a slash, then the path segments each
percent-encoded independently and rejoined with slashes. -/
theorem buildMediaUrl_spec (base relPath : String) :
    (base = "" → buildMediaUrl base relPath = "") ∧
    (base ≠ "" →
      buildMediaUrl base relPath =
        stripTrailingSlashes base ++ "/" ++
          String.intercalate "/" ((relPath.splitOn "/").map encodeURIComponent) ∧
      (∃ k, base.data = (stripTrailingSlashes base).data ++ List.replicate k '/') ∧
      ∀ c, (stripTrailingSlashes base).data.getLast? = some c → c ≠ '/') := by
  refine ⟨fun h => by simp [buildMediaUrl, h], fun h => ⟨?_, ?_, ?_⟩⟩
  · simp [buildMediaUrl, h]
  · simpa [stripTrailingSlashes] using dropTrailingSlashes_decomp base.data
  · intro c hc
    exact dropTrailingSlashes_getLast base.data c (by simpa [stripTrailingSlashes] using hc)

/-- C8 witness: a base with trailing slashes and a path with spaces resolve
to the stripped base joined with the encoded segments. -/
theorem buildMediaUrl_spec_witness :
    ("https://cdn.example.org//" : String) ≠ "" ∧
    buildMediaUrl "https://cdn.example.org//" "audio files/track 1.mp3" =
      stripTrailingSlashes "https://cdn.example.org//" ++ "/" ++
        String.intercalate "/"
          ((("audio files/track 1.mp3" : String).splitOn "/").map encodeURIComponent) :=
  ⟨by decide,
    ((buildMediaUrl_spec "https://cdn.example.org//" "audio files/track 1.mp3").2 (by decide)).1⟩

/-- C2 counterexample: selecting an item directly while a playlist is
playing does not clear the active queue, contradicting the claim that
activeQueueKind is reset to None. -/
theorem handleSelectItem_keeps_queue_cex :
    danglingState.currentPlaylist = some danglingPlaylist ∧
    (handleSelectItem danglingState itemB).currentPlaylist ≠ none := by
  decide

/-- C2 (amended): handleSelectItem of src/src/App.tsx sets selectedItemId to
the tapped item and leaves every other playback field, in particular the
current playlist and the queue position, untouched; there is no autoplay
flag in this generation. -/
theorem handleSelectItem_spec (s : AppState) (item : MediaItem) :
    (handleSelectItem s item).selectedId = some item.id ∧
    (handleSelectItem s item).currentPlaylist = s.currentPlaylist ∧
    (handleSelectItem s item).playlistIndex = s.playlistIndex ∧
    (handleSelectItem s item).position = s.position ∧
    (handleSelectItem s item).isPlaying = s.isPlaying ∧
    (handleSelectItem s item).items = s.items := by
  simp [handleSelectItem]

/-- C3 counterexample: playing a non-empty playlist whose first entry does
not resolve in the catalog does not set selectedItemId to that entry,
contradicting the claim. -/
theorem handlePlayPlaylist_dangling_cex :
    ghostPlaylist.items.length ≠ 0 ∧
    ghostPlaylist.items.head? = some { itemId := "x", loop := false } ∧
    (handlePlayPlaylist emptyState ghostPlaylist).selectedId ≠ some "x" := by
  decide

/-- C3 (amended): playing an empty playlist is a silent no-op; playing a
non-empty playlist makes it the active queue at position 0 and sets
selectedItemId to the first entry when that entry resolves in the catalog,
leaving selectedItemId unchanged when it dangles. -/
theorem handlePlayPlaylist_spec (s : AppState) (p : Playlist) :
    (p.items.length = 0 → handlePlayPlaylist s p = s) ∧
    (∀ first, p.items.head? = some first →
      (∀ it, s.items.find? (fun item => item.id == first.itemId) = some it →
        handlePlayPlaylist s p =
          { s with currentPlaylist := some p, playlistIndex := 0, selectedId := some it.id }) ∧
      (s.items.find? (fun item => item.id == first.itemId) = none →
        handlePlayPlaylist s p = { s with currentPlaylist := some p, playlistIndex := 0 })) := by
  constructor
  · intro h
    simp [handlePlayPlaylist, h]
  · intro first hfirst
    have hlen : ¬ p.items.length = 0 := by
      cases hp : p.items with
      | nil => rw [hp] at hfirst; simp at hfirst
      | cons a l => simp
    constructor
    · intro it hit
      simp [handlePlayPlaylist, hlen, hfirst, hit]
    · intro hnone
      simp [handlePlayPlaylist, hlen, hfirst, hnone]

/-- C3 witness: playing the fully resolvable two-item playlist from the
browsing state selects its first item. -/
theorem handlePlayPlaylist_spec_witness :
    twoItemPlaylist.items.head? = some { itemId := "a", loop := false } ∧
    browseState.items.find? (fun item => item.id == "a") = some itemA ∧
    handlePlayPlaylist browseState twoItemPlaylist =
      { browseState with
          currentPlaylist := some twoItemPlaylist
          playlistIndex := 0
          selectedId := some itemA.id } :=
  ⟨by decide, by decide,
    ((handlePlayPlaylist_spec browseState twoItemPlaylist).2 { itemId := "a", loop := false }
      (by decide)).1 itemA (by decide)⟩

/-- C4 counterexample: with a playlist queue active, the current entry not
looping and the next index in bounds, an ended event whose next entry
dangles leaves the state completely unchanged, contradicting the claim that
the engine advances and skips dangling entries. -/
theorem handleEnded_dangling_cex :
    danglingState.currentPlaylist = some danglingPlaylist ∧
    (danglingPlaylist.items[danglingState.playlistIndex]?).map PlaylistItem.loop = some false ∧
    danglingState.playlistIndex + 1 < danglingPlaylist.items.length ∧
    handleEnded danglingState = danglingState ∧
    (handleEnded danglingState).playlistIndex ≠ danglingState.playlistIndex + 1 := by
  decide

/-- C4 (amended): when a playlist queue is active, the current entry does
not loop and the next index is in bounds, the ended handler advances to the
next entry and selects it exactly when that entry resolves in the catalog;
when the next entry dangles the handler is a no-op, halting the advance
rather than skipping over the entry. -/
theorem handleEnded_advance_spec (s : AppState) (pl : Playlist) (e e' : PlaylistItem)
    (hpl : s.currentPlaylist = some pl)
    (he : pl.items[s.playlistIndex]? = some e)
    (hloop : e.loop = false)
    (hbound : s.playlistIndex + 1 < pl.items.length)
    (he' : pl.items[s.playlistIndex + 1]? = some e') :
    (∀ it, s.items.find? (fun item => item.id == e'.itemId) = some it →
      handleEnded s = { s with playlistIndex := s.playlistIndex + 1, selectedId := some it.id }) ∧
    (s.items.find? (fun item => item.id == e'.itemId) = none → handleEnded s = s) := by
  constructor
  · intro it hit
    simp [handleEnded, hpl, he, hloop, hbound, he', hit]
  · intro hnone
    simp [handleEnded, hpl, he, hloop, hbound, he', hnone]

/-- C4 witness: an ended event at index 0 of the resolvable two-item
playlist advances to index 1 and selects item b. -/
theorem handleEnded_advance_spec_witness :
    twoItemState.currentPlaylist = some twoItemPlaylist ∧
    twoItemState.playlistIndex + 1 < twoItemPlaylist.items.length ∧
    handleEnded twoItemState =
      { twoItemState with
          playlistIndex := twoItemState.playlistIndex + 1
          selectedId := some itemB.id } :=
  ⟨by decide, by decide,
    (handleEnded_advance_spec twoItemState twoItemPlaylist
      { itemId := "a", loop := false } { itemId := "b", loop := false }
      (by decide) (by decide) (by decide) (by decide) (by decide)).1 itemB (by decide)⟩

/-- C5: while the current playlist entry has its loop flag on, any number of
consecutive ended events leaves the current playlist, the queue position and
the selection unchanged; each event only rewinds the transport to position 0
and keeps the item playing. -/
theorem handleEnded_loop_one_spec (s : AppState) (pl : Playlist) (e : PlaylistItem)
    (hpl : s.currentPlaylist = some pl)
    (he : pl.items[s.playlistIndex]? = some e)
    (hloop : e.loop = true) (n : Nat) :
    (handleEnded^[n] s).currentPlaylist = s.currentPlaylist ∧
    (handleEnded^[n] s).playlistIndex = s.playlistIndex ∧
    (handleEnded^[n] s).selectedId = s.selectedId ∧
    (1 ≤ n → (handleEnded^[n] s).position = 0 ∧ (handleEnded^[n] s).isPlaying = true) := by
  have step : ∀ t : AppState, t.currentPlaylist = some pl → t.playlistIndex = s.playlistIndex →
      handleEnded t = { t with position := 0, isPlaying := true } := by
    intro t h1 h2
    simp [handleEnded, h1, h2, he, hloop]
  induction n with
  | zero => exact ⟨rfl, rfl, rfl, fun h => absurd h (by decide)⟩
  | succ k ih =>
    have h1 : (handleEnded^[k] s).currentPlaylist = some pl := by rw [ih.1, hpl]
    have h2 : (handleEnded^[k] s).playlistIndex = s.playlistIndex := ih.2.1
    rw [Function.iterate_succ_apply', step _ h1 h2]
    exact ⟨by simp [ih.1], by simp [h2], by simp [ih.2.2.1], fun _ => ⟨rfl, rfl⟩⟩

/-- C5 witness: three ended events on the looping entry of loopPlaylist keep
the queue position at 1. -/
theorem handleEnded_loop_one_spec_witness :
    loopState.currentPlaylist = some loopPlaylist ∧
    loopPlaylist.items[loopState.playlistIndex]? = some { itemId := "b", loop := true } ∧
    (handleEnded^[3] loopState).playlistIndex = loopState.playlistIndex :=
  ⟨by decide, by decide,
    (handleEnded_loop_one_spec loopState loopPlaylist { itemId := "b", loop := true }
      (by decide) (by decide) (by decide) 3).2.1⟩

/-- C6: an ended event with a playlist queue active at its last position and
the current entry not looping clears the active queue (resetting the stored
index to 0) and leaves the selection unchanged, so the last item stays
selected for display. -/
theorem handleEnded_stop_spec (s : AppState) (pl : Playlist) (e : PlaylistItem)
    (hpl : s.currentPlaylist = some pl)
    (hlast : s.playlistIndex + 1 = pl.items.length)
    (he : pl.items[s.playlistIndex]? = some e)
    (hloop : e.loop = false) :
    handleEnded s = { s with currentPlaylist := none, playlistIndex := 0 } ∧
    (handleEnded s).selectedId = s.selectedId := by
  have hnb : ¬ (s.playlistIndex + 1 < pl.items.length) := by omega
  constructor
  · simp [handleEnded, hpl, he, hloop, hnb]
  · simp [handleEnded, hpl, he, hloop, hnb]

/-- C6 witness: an ended event at the last index of the two-item playlist
clears the queue and keeps item b selected. -/
theorem handleEnded_stop_spec_witness :
    endState.playlistIndex + 1 = twoItemPlaylist.items.length ∧
    handleEnded endState = { endState with currentPlaylist := none, playlistIndex := 0 } ∧
    (handleEnded endState).selectedId = endState.selectedId :=
  ⟨by decide,
    (handleEnded_stop_spec endState twoItemPlaylist { itemId := "b", loop := false }
      (by decide) (by decide) (by decide) (by decide)).1,
    (handleEnded_stop_spec endState twoItemPlaylist { itemId := "b", loop := false }
      (by decide) (by decide) (by decide) (by decide)).2⟩

/-- Auxiliary: filtering a store by a different id removes every entry with
that id. -/
theorem hasId_filter_self (i : String) :
    ∀ l : List Playlist, hasId (l.filter (fun q => q.id != i)) i = false := by
  intro l
  induction l with
  | nil => rfl
  | cons q rest ih =>
    simp only [List.filter_cons]
    by_cases h : q.id = i
    · simp [h]
      exact ih
    · simp [hasId, h]

/-- Auxiliary: after an upsert the store contains the written id. -/
theorem hasId_upsert (l : List Playlist) (p : Playlist) :
    hasId (upsertById l p) p.id = true := by
  induction l with
  | nil => simp [upsertById, hasId]
  | cons q rest ih =>
    by_cases h : q.id = p.id
    · simp [upsertById, h, hasId]
    · simpa [upsertById, hasId, h] using ih

/-- C1 counterexample: sharing the never-shared private playlist assigns the
share id share-f1, but unsharing the shared copy stores it privately with no
share id at all, contradicting the claim that the first-share id survives
the round trip. -/
theorem share_unshare_clears_shareId_cex :
    ((handleSharePlaylist sampleStores samplePrivate "f1" true true).sharedPlaylists.map
        Playlist.shareId = [some "share-f1"]) ∧
    ((handleSharePlaylist (handleSharePlaylist sampleStores samplePrivate "f1" true true)
        sampleSharedVersion "f2" true true).playlists.map Playlist.shareId = [none]) ∧
    (none : Option String) ≠ some "share-f1" := by
  decide

/-- C1 (amended): sharing a private playlist assigns a share id only when
one is absent and moves the playlist from the private store to the shared
store; unsharing moves it back and the playlist is in exactly one store
after each successful toggle; however the unshare branch clears the share
id to undefined instead of keeping it, so a re-share would generate a fresh
one. -/
theorem handleSharePlaylist_migration (st : Stores) (p : Playlist) (fresh fresh2 : String)
    (hp : p.shared = false) :
    hasId (handleSharePlaylist st p fresh true true).playlists p.id = false ∧
    hasId (handleSharePlaylist st p fresh true true).sharedPlaylists p.id = true ∧
    hasId (handleSharePlaylist (handleSharePlaylist st p fresh true true)
        (sharedCopy p fresh) fresh2 true true).sharedPlaylists p.id = false ∧
    ∃ r ∈ (handleSharePlaylist (handleSharePlaylist st p fresh true true)
        (sharedCopy p fresh) fresh2 true true).playlists,
      r.id = p.id ∧ r.shared = false ∧ r.shareId = none := by
  have h1 : handleSharePlaylist st p fresh true true =
      { st with
          sharedPlaylists := upsertById st.sharedPlaylists (sharedCopy p fresh)
          playlists := st.playlists.filter (fun r => r.id != p.id) } := by
    simp [handleSharePlaylist, hp]
  have hq : (sharedCopy p fresh).shared = true := rfl
  have h2 : handleSharePlaylist (handleSharePlaylist st p fresh true true)
      (sharedCopy p fresh) fresh2 true true =
      { playlists := st.playlists.filter (fun r => r.id != p.id) ++
          [unsharedCopy (sharedCopy p fresh)]
        sharedPlaylists := (upsertById st.sharedPlaylists (sharedCopy p fresh)).filter
          (fun r => r.id != (sharedCopy p fresh).id) } := by
    rw [h1]
    simp [handleSharePlaylist, hq]
  refine ⟨?_, ?_, ?_, ?_⟩
  · rw [h1]
    exact hasId_filter_self p.id st.playlists
  · rw [h1]
    exact hasId_upsert st.sharedPlaylists (sharedCopy p fresh)
  · rw [h2]
    exact hasId_filter_self (sharedCopy p fresh).id (upsertById st.sharedPlaylists (sharedCopy p fresh))
  · rw [h2]
    refine ⟨unsharedCopy (sharedCopy p fresh), ?_, rfl, rfl, rfl⟩
    simp

/-- C1 witness: sharing the sample private playlist puts its id in the
shared store only, and unsharing the shared copy removes it from there. -/
theorem handleSharePlaylist_migration_witness :
    samplePrivate.shared = false ∧
    hasId (handleSharePlaylist sampleStores samplePrivate "f1" true true).playlists
      samplePrivate.id = false ∧
    hasId (handleSharePlaylist sampleStores samplePrivate "f1" true true).sharedPlaylists
      samplePrivate.id = true ∧
    hasId (handleSharePlaylist (handleSharePlaylist sampleStores samplePrivate "f1" true true)
        (sharedCopy samplePrivate "f1") "f2" true true).sharedPlaylists
      samplePrivate.id = false :=
  ⟨rfl,
    (handleSharePlaylist_migration sampleStores samplePrivate "f1" "f2" rfl).1,
    (handleSharePlaylist_migration sampleStores samplePrivate "f1" "f2" rfl).2.1,
    (handleSharePlaylist_migration sampleStores samplePrivate "f1" "f2" rfl).2.2.1⟩

/-- C7 counterexample: at the last index of a playlist with loop-all on,
skip-next fails to wrap to index 0 because the first entry dangles,
contradicting the claim that loop-all always wraps. -/
theorem handleSkipNext_wrap_dangling_cex :
    skipCexState.loopMode = Redesign.LoopMode.all ∧
    skipCexState.playlistIndex = skipPlaylist.items.length - 1 ∧
    (Redesign.selectedItem skipCexState).isSome = true ∧
    Redesign.handleSkipNext skipCexState = skipCexState ∧
    (Redesign.handleSkipNext skipCexState).playlistIndex ≠ 0 := by
  decide

/-- C7 (amended): with an item selected and a playlist queue active at its
last index, skip-next with loop mode none is a no-op; with loop mode all it
wraps to index 0 and selects the first entry provided that entry resolves in
the catalog, and is a no-op when the first entry dangles. -/
theorem handleSkipNext_bounded (s : Redesign.V2State) (pl : Playlist)
    (hpl : s.currentPlaylist = some pl)
    (hlast : s.playlistIndex = pl.items.length - 1)
    (hsel : (Redesign.selectedItem s).isSome = true) :
    (s.loopMode = Redesign.LoopMode.noneMode → Redesign.handleSkipNext s = s) ∧
    (s.loopMode = Redesign.LoopMode.all →
      ∀ e, pl.items.head? = some e →
        (∀ it, s.items.find? (fun item => item.id == e.itemId) = some it →
          Redesign.handleSkipNext s =
            { s with playlistIndex := 0, selectedId := some it.id, shouldAutoPlay := true }) ∧
        (s.items.find? (fun item => item.id == e.itemId) = none →
          Redesign.handleSkipNext s = s)) := by
  obtain ⟨it0, hit0⟩ := Option.isSome_iff_exists.mp hsel
  have hnotlt : ¬ (s.playlistIndex < pl.items.length - 1) := by omega
  constructor
  · intro hmode
    simp [Redesign.handleSkipNext, hit0, hpl, hnotlt, hmode]
  · intro hmode e he
    obtain ⟨tl, hitems⟩ : ∃ tl, pl.items = e :: tl := by
      cases hc : pl.items with
      | nil => rw [hc] at he; simp at he
      | cons x xs =>
        rw [hc] at he
        simp only [List.head?_cons, Option.some.injEq] at he
        exact ⟨xs, by rw [he]⟩
    have hidx : s.playlistIndex = tl.length := by
      rw [hitems] at hlast
      simpa using hlast
    constructor
    · intro it hit
      simp [Redesign.handleSkipNext, hit0, hpl, hmode, Redesign.goToPlaylistIndex,
        hitems, hidx, hit]
    · intro hnone
      simp [Redesign.handleSkipNext, hit0, hpl, hmode, Redesign.goToPlaylistIndex,
        hitems, hidx, hnone]

/-- C7 witness: at the last index of the resolvable playlist, skip-next with
loop mode none stays put while with loop mode all it wraps to index 0 and
selects item a. -/
theorem handleSkipNext_bounded_witness :
    skipNoneState.loopMode = Redesign.LoopMode.noneMode ∧
    Redesign.handleSkipNext skipNoneState = skipNoneState ∧
    skipOkState.loopMode = Redesign.LoopMode.all ∧
    Redesign.handleSkipNext skipOkState =
      { skipOkState with playlistIndex := 0, selectedId := some itemA.id, shouldAutoPlay := true } :=
  ⟨rfl,
    (handleSkipNext_bounded skipNoneState skipOkPlaylist (by decide) (by decide)
      (by decide)).1 rfl,
    rfl,
    ((handleSkipNext_bounded skipOkState skipOkPlaylist (by decide) (by decide)
      (by decide)).2 rfl { itemId := "a", loop := false } (by decide)).1 itemA (by decide)⟩

/-- Auxiliary: a generated share id is never the empty string. -/
theorem generateShareId_ne_empty (fresh : String) : generateShareId fresh ≠ "" := by
  intro h
  unfold generateShareId at h
  have hd : ("share-" ++ fresh).data = "share-".data ++ fresh.data := rfl
  rw [h] at hd
  have h2 : "share-".data ++ fresh.data = [] := hd.symm
  rcases List.append_eq_nil.mp h2 with ⟨h3, _⟩
  exact absurd h3 (by decide)

/-- C9: every playlist the POST branch stores is marked shared with a
non-empty share id, a truthy incoming share id is preserved verbatim, and a
request with a falsy id or name or without an items array is answered 400
with nothing written. -/
theorem handlePost_invariants (body : Option UpsertRequest) (fresh : String) (writeOk : Bool) :
    (∀ p, (handlePost body fresh writeOk).stored = some p →
      p.shared = true ∧ ∃ s, p.shareId = some s ∧ s ≠ "") ∧
    (∀ req p, body = some req → (handlePost body fresh writeOk).stored = some p →
      truthy req.shareId = true → p.shareId = req.shareId) ∧
    (∀ req, body = some req →
      truthy req.id = false ∨ truthy req.name = false ∨ req.items = none →
      handlePost body fresh writeOk = ⟨400, none⟩) := by
  refine ⟨?_, ?_, ?_⟩
  · intro p hp
    cases body with
    | none => simp [handlePost] at hp
    | some req =>
      obtain ⟨rid, rname, ritems, rshare⟩ := req
      cases rid with
      | none => simp [handlePost] at hp
      | some i =>
        cases rname with
        | none => simp [handlePost] at hp
        | some n =>
          cases ritems with
          | none => simp [handlePost] at hp
          | some its =>
            by_cases hbad : i = "" ∨ n = ""
            · simp [handlePost, hbad] at hp
            · cases writeOk with
              | false => simp [handlePost, hbad] at hp
              | true =>
                cases rshare with
                | none =>
                  simp [handlePost, hbad] at hp
                  exact hp ▸ ⟨rfl, generateShareId fresh, rfl, generateShareId_ne_empty fresh⟩
                | some sh =>
                  by_cases hsh : sh = ""
                  · simp [handlePost, hbad, hsh] at hp
                    exact hp ▸ ⟨rfl, generateShareId fresh, rfl, generateShareId_ne_empty fresh⟩
                  · simp [handlePost, hbad, hsh] at hp
                    exact hp ▸ ⟨rfl, sh, rfl, hsh⟩
  · intro req p hbody hp hsh
    subst hbody
    obtain ⟨rid, rname, ritems, rshare⟩ := req
    cases rid with
    | none => simp [handlePost] at hp
    | some i =>
      cases rname with
      | none => simp [handlePost] at hp
      | some n =>
        cases ritems with
        | none => simp [handlePost] at hp
        | some its =>
          by_cases hbad : i = "" ∨ n = ""
          · simp [handlePost, hbad] at hp
          · cases writeOk with
            | false => simp [handlePost, hbad] at hp
            | true =>
              cases rshare with
              | none => simp [truthy] at hsh
              | some sh =>
                have hshne : ¬ sh = "" := by simpa [truthy] using hsh
                simp [handlePost, hbad, hshne] at hp
                exact hp ▸ rfl
  · intro req hbody hfalsy
    subst hbody
    obtain ⟨rid, rname, ritems, rshare⟩ := req
    cases rid with
    | none => simp [handlePost]
    | some i =>
      cases rname with
      | none => simp [handlePost]
      | some n =>
        cases ritems with
        | none => simp [handlePost]
        | some its =>
          have hbad : i = "" ∨ n = "" := by
            rcases hfalsy with h | h | h
            · left
              simpa [truthy] using h
            · right
              simpa [truthy] using h
            · simp at h
          simp [handlePost, hbad]

/-- C9 witness: a well-formed request keeping its share id is stored shared
with that id, and a request with an empty id is rejected with no write. -/
theorem handlePost_invariants_witness :
    ((handlePost (some goodUpsertReq) "f" true).stored =
      some { id := "pl-1", name := "Morning", items := [], shared := true,
             shareId := some "keep-1" } ∧ truthy goodUpsertReq.shareId = true) ∧
    ({ id := "pl-1", name := "Morning", items := [], shared := true,
       shareId := some "keep-1" } : Playlist).shareId = goodUpsertReq.shareId ∧
    (truthy badUpsertReq.id = false ∨ truthy badUpsertReq.name = false ∨
      badUpsertReq.items = none) ∧
    handlePost (some badUpsertReq) "f" true = ⟨400, none⟩ :=
  ⟨⟨by decide, by decide⟩,
    (handlePost_invariants (some goodUpsertReq) "f" true).2.1 goodUpsertReq
      { id := "pl-1", name := "Morning", items := [], shared := true, shareId := some "keep-1" }
      rfl (by decide) (by decide),
    Or.inl (by decide),
    (handlePost_invariants (some badUpsertReq) "f" true).2.2 badUpsertReq rfl
      (Or.inl (by decide))⟩

end DrJoe

